import Mathlib

/-!
Verification of `utils/logging.py` (shayaansultan/python-utils).

The definitions below are a shallow embedding of the module: the
`JSONFormatter` class, the text formatter built by `get_logger`
(lines 80-83), and the `get_logger` factory itself (lines 40-112),
together with the parts of the CPython standard library that those
lines invoke (`dict` insertion/update, `json.dumps(..., ensure_ascii=False)`,
`logging.Formatter.formatTime`/`format`, `Logger.setLevel` level
resolution, `pathlib` parent/join, and the logger registry of
`logging.getLogger`).  Machine strings are Lean `String`s, the logger
registry is explicit state, and filesystem side effects (directory
creation, file opening) are recorded as an explicit effect trace.
-/

set_option autoImplicit false

namespace PyLogging

/-! ### Association lists modelling Python `dict` (insertion ordered)

A CPython `dict` preserves insertion order; assigning to an existing key
replaces the value in place, assigning to a fresh key appends at the end.
-/

/-- First-match lookup in an insertion-ordered association list,
modelling `d[k]` / `k in d`. -/
def alLookup {α : Type} : List (String × α) → String → Option α
  | [], _ => none
  | (k', v) :: rest, k => if k' = k then some v else alLookup rest k

/-- Key-assignment `d[k] = v` on an insertion-ordered association list:
replace in place when the key exists, append otherwise. -/
def alInsert {α : Type} : List (String × α) → String → α → List (String × α)
  | [], k, v => [(k, v)]
  | (k', v') :: rest, k, v =>
      if k' = k then (k', v) :: rest else (k', v') :: alInsert rest k v

/-- `dict.update`: assign every pair of `l` into `d`, in order. -/
def alUpdate {α : Type} (d l : List (String × α)) : List (String × α) :=
  l.foldl (fun acc kv => alInsert acc kv.1 kv.2) d

/-- Key membership test (`k in d`). -/
def alContainsKey {α : Type} (l : List (String × α)) (k : String) : Bool :=
  (alLookup l k).isSome

/-- Value of the LAST binding of `k` in `l` (the one that survives when
`l` is poured into a dict pair by pair). -/
def alLookupLast {α : Type} (l : List (String × α)) (k : String) : Option α :=
  alLookup l.reverse k

/-! ### JSON values and `json.dumps(obj, ensure_ascii=False)`

Only the value shapes that can appear in a formatted log record are
modelled: strings and integers.  Serialization follows
`json.encoder` with the default separators `", "` and `": "` and with
`ensure_ascii=False`, exactly as called at line 37 of the source:
`\` and `"` get a backslash escape, control characters below U+0020 get
their two-character escape (`\n`, `\r`, `\t`, `\b`, `\f`) or a `\u00XX`
escape, and every other character - in particular every non-ASCII
character - is emitted unchanged. -/

inductive JVal where
  | s (v : String)
  | i (v : Int)
deriving Repr, DecidableEq

/-- Lower-case hexadecimal digit, for `\u00XX` escapes. -/
def hexDigit (n : Nat) : Char :=
  if n < 10 then Char.ofNat (48 + n) else Char.ofNat (87 + n)

/-- Per-character JSON string escaping with `ensure_ascii=False`
(`json.encoder.ESCAPE` substitution). -/
def escapeJsonChar (c : Char) : String :=
  if c = '\\' then "\\\\"
  else if c = '"' then "\\\""
  else if c = '\n' then "\\n"
  else if c = '\r' then "\\r"
  else if c = '\t' then "\\t"
  else if c.toNat = 8 then "\\b"
  else if c.toNat = 12 then "\\f"
  else if c.toNat < 32 then
    "\\u00" ++ String.singleton (hexDigit (c.toNat / 16))
            ++ String.singleton (hexDigit (c.toNat % 16))
  else String.singleton c

/-- Concatenation of a list of strings (`"".join`). -/
def concatStrings : List String → String
  | [] => ""
  | x :: rest => x ++ concatStrings rest

/-- Body of a serialized JSON string (without the surrounding quotes). -/
def escapeJsonString (s : String) : String :=
  concatStrings (s.data.map escapeJsonChar)

/-- Serialized JSON string, quotes included. -/
def serializeJString (s : String) : String :=
  "\"" ++ escapeJsonString s ++ "\""

/-- Serialization of a single JSON value (Python `int`s print in
decimal, possibly with a leading minus). -/
def JVal.serialize : JVal → String
  | .s v => serializeJString v
  | .i v => toString v

/-- `", ".join`, the default item separator of `json.dumps`. -/
def joinComma : List String → String
  | [] => ""
  | [x] => x
  | x :: rest => x ++ ", " ++ joinComma rest

/-- One `"key": value` member of a serialized object. -/
def jsonEntry (kv : String × JVal) : String :=
  serializeJString kv.1 ++ ": " ++ kv.2.serialize

/-- `json.dumps(d, ensure_ascii=False)` on an insertion-ordered object. -/
def jsonDumps (d : List (String × JVal)) : String :=
  "\x7b" ++ joinComma (d.map jsonEntry) ++ "\x7d"

/-! ### Time formatting (`time.strftime` / `logging.Formatter.formatTime`) -/

/-- A broken-down local time, as produced by `time.localtime`. -/
structure PyTime where
  year : Nat
  month : Nat
  day : Nat
  hour : Nat
  minute : Nat
  second : Nat
deriving Repr, DecidableEq

/-- Two-digit zero-padded decimal (`%02d`). -/
def pad2 (n : Nat) : String := if n < 10 then "0" ++ toString n else toString n

/-- Three-digit zero-padded decimal (`%03d`). -/
def pad3 (n : Nat) : String :=
  if n < 10 then "00" ++ toString n
  else if n < 100 then "0" ++ toString n
  else toString n

/-- Expansion of a single `strftime` conversion; only the codes used by
the module are given (years in log timestamps have four digits, so `%Y`
needs no padding here). -/
def strftimeCode (c : Char) (t : PyTime) : String :=
  if c = 'Y' then toString t.year
  else if c = 'm' then pad2 t.month
  else if c = 'd' then pad2 t.day
  else if c = 'H' then pad2 t.hour
  else if c = 'M' then pad2 t.minute
  else if c = 'S' then pad2 t.second
  else "%" ++ String.singleton c

/-- Segments of a parsed `strftime` format string. -/
inductive TimeSeg where
  | lit (s : String)
  | code (c : Char)
deriving Repr, DecidableEq

/-- Prepend a literal, merging it with an adjacent literal segment. -/
def consLitT (s : String) : List TimeSeg → List TimeSeg
  | .lit s2 :: rest => .lit (s ++ s2) :: rest
  | l => .lit s :: l

/-- Parse a `strftime` format string into segments. -/
def parseStrftime : List Char → List TimeSeg
  | [] => []
  | '%' :: c :: rest => .code c :: parseStrftime rest
  | c :: rest => consLitT (String.singleton c) (parseStrftime rest)

/-- Render parsed `strftime` segments against a time value. -/
def renderTime (t : PyTime) : List TimeSeg → String
  | [] => ""
  | [.lit s] => s
  | [.code c] => strftimeCode c t
  | .lit s :: rest => s ++ renderTime t rest
  | .code c :: rest => strftimeCode c t ++ renderTime t rest

/-- `time.strftime(fmt, t)`. -/
def pyStrftime (fmt : String) (t : PyTime) : String :=
  renderTime t (parseStrftime fmt.data)

/-! ### Log records -/

/-- A `logging.LogRecord`, restricted to the attributes this module
reads.  `msg` is the already-rendered message (`record.getMessage()`
with positional interpolation resolved); `exc_info` is `none` when the
record carries no exception and otherwise holds the rendered
exception/stack text that `Formatter.formatException` would produce;
`extra` is the optional extra-fields mapping (`none` models the
attribute being absent). -/
structure LogRecord where
  name : String
  levelname : String
  msg : String
  module : String
  funcName : String
  lineno : Nat
  created : PyTime
  msecs : Nat
  exc_info : Option String
  extra : Option (List (String × JVal))
deriving Repr, DecidableEq

/-- `record.getMessage()`; interpolation is already resolved in `msg`. -/
def getMessage (r : LogRecord) : String := r.msg

/-- `logging.Formatter.formatTime(record, datefmt)`: with an explicit
`datefmt` it is `time.strftime(datefmt, localtime)`; with `datefmt=None`
it is the default format `"%Y-%m-%d %H:%M:%S"` followed by
`",%03d" % record.msecs`. -/
def formatTime (datefmt : Option String) (r : LogRecord) : String :=
  match datefmt with
  | some f => pyStrftime f r.created
  | none => pyStrftime "%Y-%m-%d %H:%M:%S" r.created ++ "," ++ pad3 r.msecs

/-! ### `JSONFormatter` (source lines 15-37) -/

/-- The dict built by `JSONFormatter.format` (lines 20-35): the six
standard keys, then `exception` when `record.exc_info` is truthy, then
`log_record.update(record.extra)` when the `extra` attribute exists and
is truthy (a present-but-empty mapping is falsy and is not merged). -/
def JSONFormatter.formatDict (r : LogRecord) : List (String × JVal) :=
  let base : List (String × JVal) :=
    [("timestamp", .s (formatTime none r)),
     ("level", .s r.levelname),
     ("message", .s (getMessage r)),
     ("module", .s r.module),
     ("function", .s r.funcName),
     ("line", .i r.lineno)]
  let withExc :=
    match r.exc_info with
    | some e => alInsert base "exception" (.s e)
    | none => base
  match r.extra with
  | some l => if l.isEmpty then withExc else alUpdate withExc l
  | none => withExc

/-- `JSONFormatter.format` (line 37): `json.dumps(log_record, ensure_ascii=False)`. -/
def JSONFormatter.format (r : LogRecord) : String :=
  jsonDumps (JSONFormatter.formatDict r)

/-! ### `%`-style format interpolation (`fmt % record.__dict__`)

`logging.Formatter` with the default `%` style renders its format
string against the record's attribute dict.  Only the `%(key)c`
conversions that can appear in this module's single format string are
needed; the parser splits the format string into literal runs and
keyed fields. -/

/-- Segments of a parsed `%`-style format string. -/
inductive PcSeg where
  | lit (s : String)
  | field (key : String) (conv : Char)
deriving Repr, DecidableEq

/-- Prepend a literal, merging it with an adjacent literal segment. -/
def consLitP (s : String) : List PcSeg → List PcSeg
  | .lit s2 :: rest => .lit (s ++ s2) :: rest
  | l => .lit s :: l

/-- Read the parenthesized key of a `%(key)c` conversion: returns the
key and the characters after the closing parenthesis. -/
def takePcKey : List Char → String × List Char
  | [] => ("", [])
  | ')' :: rest => ("", rest)
  | c :: rest =>
      let p := takePcKey rest
      (String.singleton c ++ p.1, p.2)

/-- Parse a `%`-style format string into segments (fuel-driven; the
fuel is the length of the input, which bounds the number of steps). -/
def parsePcAux : Nat → List Char → List PcSeg
  | 0, _ => []
  | _ + 1, [] => []
  | fuel + 1, '%' :: '(' :: rest =>
      let p := takePcKey rest
      match p.2 with
      | conv :: rest2 => .field p.1 conv :: parsePcAux fuel rest2
      | [] => []
  | fuel + 1, '%' :: '%' :: rest => consLitP "%" (parsePcAux fuel rest)
  | fuel + 1, c :: rest => consLitP (String.singleton c) (parsePcAux fuel rest)

/-- Render one field: the record dict holds already-stringified values,
so the `s` conversion returns the value itself (a missing key would
raise in Python; it cannot happen for the format string the module
uses). -/
def pcConvert (_conv : Char) (v : Option String) : String :=
  match v with
  | some s => s
  | none => ""

/-- Render parsed `%`-format segments against a field map. -/
def renderPc (f : String → Option String) : List PcSeg → String
  | [] => ""
  | [.lit s] => s
  | [.field k conv] => pcConvert conv (f k)
  | .lit s :: rest => s ++ renderPc f rest
  | .field k conv :: rest => pcConvert conv (f k) ++ renderPc f rest

/-- `fmt % fields` for a `%`-style logging format string. -/
def pyPercentFormat (f : String → Option String) (fmt : String) : String :=
  renderPc f (parsePcAux fmt.data.length fmt.data)

/-- The record attributes the text formatter can interpolate
(`record.__dict__`, pre-stringified), with `asctime` passed in as
computed by `formatTime`. -/
def recordFieldMap (r : LogRecord) (asctime : String) (key : String) : Option String :=
  if key = "asctime" then some asctime
  else if key = "name" then some r.name
  else if key = "levelname" then some r.levelname
  else if key = "message" then some (getMessage r)
  else if key = "module" then some r.module
  else if key = "funcName" then some r.funcName
  else if key = "lineno" then some (toString r.lineno)
  else none

/-- Tail of `logging.Formatter.format`: when the record carries
exception info, the rendered exception text is appended after a
newline (unless the line already ends in one). -/
def addExcText (s : String) (r : LogRecord) : String :=
  match r.exc_info with
  | none => s
  | some e =>
      let endsNl : Bool :=
        match s.data.getLast? with
        | some c => c = '\n'
        | none => false
      (if endsNl then s else s ++ "\n") ++ e

/-! ### Formatters, handlers, loggers -/

/-- The formatter attached by `get_logger`: either the module's
`JSONFormatter` or a stdlib `logging.Formatter` carrying the format
string and date format of lines 80-83. -/
inductive Formatter where
  | json
  | text (fmt : String) (datefmt : String)
deriving Repr, DecidableEq

/-- The format string at line 81. -/
def logFmtString : String := "%(asctime)s - %(name)s - %(levelname)s - %(message)s"

/-- The date format at line 82. -/
def dateFmtString : String := "%Y-%m-%d %H:%M:%S"

/-- The text formatter constructed at lines 80-83. -/
def textFormatter : Formatter := Formatter.text logFmtString dateFmtString

/-- Render a record with a formatter (`handler.format(record)`).  The
text branch is stdlib `logging.Formatter.format`: interpolate the
format string over the record dict (with `asctime` computed from the
date format), then append exception text when present. -/
def Formatter.formatRecord : Formatter → LogRecord → String
  | .json, r => JSONFormatter.format r
  | .text fmt datefmt, r =>
      addExcText (pyPercentFormat (recordFieldMap r (formatTime (some datefmt) r)) fmt) r

/-- A sink attached by the factory: `logging.StreamHandler()` or
`logging.handlers.RotatingFileHandler(path, maxBytes, backupCount,
encoding="utf-8")`, each carrying the formatter set on it. -/
inductive Handler where
  | console (fmt : Formatter)
  | rotatingFile (path : String) (maxBytes : Nat) (backupCount : Nat)
      (encoding : String) (fmt : Formatter)
deriving Repr, DecidableEq

/-- A `logging.Logger`: name, numeric level, attached handlers,
propagation flag. -/
structure Logger where
  name : String
  level : Int
  handlers : List Handler
  propagate : Bool
deriving Repr, DecidableEq

/-- A logger as freshly created by `logging.getLogger` for an unseen
name: level `NOTSET`, no handlers, propagation on. -/
def freshLogger (key : String) : Logger :=
  { name := key, level := 0, handlers := [], propagate := true }

/-! ### Level resolution (`Logger.setLevel` → `logging._checkLevel`) -/

/-- A `log_level` argument: `int | str` per the signature at line 43. -/
inductive PyLevel where
  | int (n : Int)
  | str (s : String)
deriving Repr, DecidableEq

/-- `logging._nameToLevel`: the recognized level names (exact,
case-sensitive strings). -/
def nameToLevel : List (String × Int) :=
  [("CRITICAL", 50), ("FATAL", 50), ("ERROR", 40), ("WARN", 30),
   ("WARNING", 30), ("INFO", 20), ("DEBUG", 10), ("NOTSET", 0)]

/-- `logging._checkLevel`: any `int` is accepted as-is; a `str` must be
one of the names in `nameToLevel`, otherwise `setLevel` raises
`ValueError` (the Python message wraps the name in repr quotes, elided
here). -/
def checkLevel : PyLevel → Except String Int
  | .int n => .ok n
  | .str s =>
      match alLookup nameToLevel s with
      | some v => .ok v
      | none => .error ("Unknown level: " ++ s)

/-! ### Paths (`pathlib`) and filesystem effects -/

/-- `Path.is_absolute()` for POSIX paths: the path begins with `/`. -/
def pyPathIsAbs (p : String) : Bool :=
  match p.data with
  | '/' :: _ => true
  | _ => false

/-- Split a character list on a separator (`"a/b".split("/")`
semantics: an empty input gives one empty component). -/
def splitOnChar (sep : Char) : List Char → List (List Char)
  | [] => [[]]
  | c :: rest =>
      let r := splitOnChar sep rest
      if c = sep then [] :: r
      else
        match r with
        | x :: xs => (c :: x) :: xs
        | [] => [[c]]

/-- `Path.parent`: drop the final path component. -/
def pyPathParent (p : String) : String :=
  let parts := (splitOnChar '/' p.data).map String.mk
  if parts.length ≤ 1 then "."
  else
    let q := String.intercalate "/" parts.dropLast
    if q = "" then (if pyPathIsAbs p then "/" else ".") else q

/-- `Path.__truediv__`: joining with an absolute right operand yields
the right operand. -/
def pyPathJoin (a b : String) : String :=
  if pyPathIsAbs b then b else a ++ "/" ++ b

/-- `Path(__file__)`: the module's own file.  Its absolute location is
environment-dependent; it is modelled by a fixed representative path
whose directory structure (`.../utils/logging.py`) matches the
repository. -/
def moduleFile : String := "/project_root/utils/logging.py"

/-- `Path(__file__).parent.parent` (line 95): one directory above the
module's own directory. -/
def projectRoot : String := pyPathParent (pyPathParent moduleFile)

/-- Lines 92-96: a relative log-file path is anchored at the project
root; an absolute path is used as-is. -/
def resolveLogFile (p : String) : String :=
  if pyPathIsAbs p then p else pyPathJoin projectRoot p

/-- Filesystem side effects of `get_logger`, in program order:
`parent.mkdir(parents=True, exist_ok=True)` (line 98) and the file
opened by constructing the `RotatingFileHandler` (line 100). -/
inductive FsEffect where
  | mkdirParents (path : String)
  | openFile (path : String)
deriving Repr, DecidableEq

/-! ### The factory `get_logger` (lines 40-112) -/

/-- The logger registry of `logging.getLogger`, keyed by name; the key
`""` is the root logger. -/
abbrev RegState := List (String × Logger)

/-- Line 67: `name if name is not None else ""`. -/
def keyOf (name : Option String) : String :=
  match name with
  | some n => n
  | none => ""

/-- Line 77: `log_format.lower() == "json"` selects the JSON formatter;
everything else gets the text formatter.  `str.lower` is modelled on
the ASCII range. -/
def asciiLowerChar (c : Char) : Char :=
  if 'A' ≤ c ∧ c ≤ 'Z' then Char.ofNat (c.toNat + 32) else c

/-- `str.lower()` (ASCII range). -/
def asciiLower (s : String) : String := String.mk (s.data.map asciiLowerChar)

/-- Formatter selection at lines 77-83. -/
def chooseFormatter (log_format : String) : Formatter :=
  if asciiLower log_format == "json" then Formatter.json else textFormatter

/-- Line 91 `if log_file:` plus lines 92-96: `None` and the empty
string are falsy and disable file logging; otherwise the path is
resolved. -/
def effectiveLogFile : Option String → Option String
  | some p => if p = "" then none else some (resolveLogFile p)
  | none => none

/-- Lines 76-110 once the configuration path is taken: build the
formatter, append the console handler, optionally resolve the file
path, create its directory and append the rotating file handler, then
clear the propagation flag.  Returns the configured logger and the
filesystem effects in program order. -/
def configureLogger (logger : Logger) (log_file : Option String)
    (log_format : String) (max_bytes backup_count : Nat) :
    Logger × List FsEffect :=
  let formatter := chooseFormatter log_format
  let l1 := { logger with handlers := logger.handlers ++ [Handler.console formatter] }
  match effectiveLogFile log_file with
  | some resolved =>
      ({ l1 with
          handlers := l1.handlers ++
            [Handler.rotatingFile resolved max_bytes backup_count "utf-8" formatter],
          propagate := false },
       [FsEffect.mkdirParents (pyPathParent resolved), FsEffect.openFile resolved])
  | none => ({ l1 with propagate := false }, [])

/-- `get_logger` (lines 40-112).  The registry is threaded explicitly;
the result is the returned logger, the registry afterwards, and the
filesystem effects.  `Except` models the `ValueError` that
`logger.setLevel` raises on an unrecognized level name (the registry
mutation that precedes the raise is not tracked on the error path). -/
def get_logger (st : RegState) (name : Option String) (log_level : PyLevel)
    (log_file : Option String) (log_format : String)
    (max_bytes backup_count : Nat) :
    Except String (Logger × RegState × List FsEffect) :=
  let key := keyOf name
  let found := alLookup st key
  let logger := found.getD (freshLogger key)
  let st0 := match found with
    | some _ => st
    | none => alInsert st key (freshLogger key)
  match logger.handlers with
  | _ :: _ => .ok (logger, st0, [])
  | [] =>
      match checkLevel log_level with
      | .error e => .error e
      | .ok lvl =>
          let p := configureLogger { logger with level := lvl }
                     log_file log_format max_bytes backup_count
          .ok (p.1, alInsert st0 key p.1, p.2)

/-- The registry before the module body runs (the pre-existing stdlib
root logger is created on demand here, which is observationally
equivalent for this factory since the configuration path overwrites
its level and it starts with no handlers). -/
def initRegistry : RegState := []

/-- Line 116: `root_logger = get_logger()` at module import time, with
the declared defaults `log_level=logging.INFO`, `log_file=None`,
`log_format="text"`, `max_bytes=10*1024*1024`, `backup_count=5`. -/
def moduleInit : Except String (Logger × RegState × List FsEffect) :=
  get_logger initRegistry none (.int 20) none "text" 10485760 5

/-- The logger named by `name` has not been configured in `st`: it is
either absent from the registry or present with no handlers (the guard
at line 70 takes the configuration path exactly in this situation). -/
def unconfiguredB (st : RegState) (name : Option String) : Bool :=
  match alLookup st (keyOf name) with
  | none => true
  | some l => l.handlers.isEmpty

/-- `t` is a suffix of `s` (as character sequences). -/
def strEndsWith (s t : String) : Prop := t.data <:+ s.data

/-! ## Lemmas -/

theorem strData_append (a b : String) : (a ++ b).data = a.data ++ b.data := by
  cases a; cases b; rfl

theorem alLookup_alInsert_self {α : Type} (d : List (String × α)) (k : String) (v : α) :
    alLookup (alInsert d k v) k = some v := by
  induction d with
  | nil => simp [alInsert, alLookup]
  | cons kv rest ih =>
      by_cases h : kv.1 = k
      · simp [alInsert, alLookup, h]
      · simp [alInsert, alLookup, h, ih]

theorem alLookup_alInsert_ne {α : Type} (d : List (String × α)) (k k' : String) (v : α)
    (h : k' ≠ k) : alLookup (alInsert d k v) k' = alLookup d k' := by
  have hne : ¬ k = k' := fun e => h e.symm
  induction d with
  | nil => simp [alInsert, alLookup, hne]
  | cons kv rest ih =>
      obtain ⟨k1, v1⟩ := kv
      by_cases hk : k1 = k
      · subst hk
        simp [alInsert, alLookup, hne]
      · simp only [alInsert, if_neg hk]
        by_cases hk' : k1 = k'
        · simp [alLookup, hk']
        · simp [alLookup, hk', ih]

theorem alInsert_of_lookup_eq {α : Type} (d : List (String × α)) (k : String) (v : α)
    (h : alLookup d k = some v) : alInsert d k v = d := by
  induction d with
  | nil => simp [alLookup] at h
  | cons kv rest ih =>
      obtain ⟨k1, v1⟩ := kv
      by_cases hk : k1 = k
      · simp only [alLookup, if_pos hk] at h
        obtain rfl : v1 = v := Option.some.inj h
        simp [alInsert, hk]
      · simp only [alLookup, if_neg hk] at h
        simp [alInsert, hk, ih h]

theorem alInsert_of_lookup_none {α : Type} (d : List (String × α)) (k : String) (v : α)
    (h : alLookup d k = none) : alInsert d k v = d ++ [(k, v)] := by
  induction d with
  | nil => rfl
  | cons kv rest ih =>
      by_cases hk : kv.1 = k
      · simp [alLookup, hk] at h
      · simp [alLookup, hk] at h
        simp [alInsert, hk, ih h]

theorem alLookup_append_of_isSome {α : Type} (a b : List (String × α)) (k : String)
    (h : (alLookup a k).isSome) : alLookup (a ++ b) k = alLookup a k := by
  induction a with
  | nil => simp [alLookup] at h
  | cons kv rest ih =>
      by_cases hk : kv.1 = k
      · simp [alLookup, hk]
      · simp only [alLookup, if_neg hk] at h ⊢
        exact ih h

theorem alLookup_append_of_none {α : Type} (a b : List (String × α)) (k : String)
    (h : alLookup a k = none) : alLookup (a ++ b) k = alLookup b k := by
  induction a with
  | nil => rfl
  | cons kv rest ih =>
      by_cases hk : kv.1 = k
      · simp [alLookup, hk] at h
      · simp only [alLookup, if_neg hk] at h ⊢
        exact ih h

theorem alContainsKey_eq_isSome {α : Type} (l : List (String × α)) (k : String) :
    alContainsKey l k = (alLookup l k).isSome := rfl

theorem alLookup_reverse_isSome {α : Type} (l : List (String × α)) (k : String) :
    (alLookup l.reverse k).isSome = (alLookup l k).isSome := by
  induction l with
  | nil => rfl
  | cons kv rest ih =>
      by_cases hk : kv.1 = k
      · by_cases hr : (alLookup rest.reverse k).isSome
        · rw [List.reverse_cons, alLookup_append_of_isSome _ _ _ hr, ih]
          simp [alLookup, hk]
          exact ih.symm.trans (by simpa using hr)
        · have hr' : alLookup rest.reverse k = none := by
            cases hmm : alLookup rest.reverse k with
            | none => rfl
            | some v => rw [hmm] at hr; simp at hr
          rw [List.reverse_cons, alLookup_append_of_none _ _ _ hr']
          simp [alLookup, hk]
      · by_cases hr : (alLookup rest.reverse k).isSome
        · rw [List.reverse_cons, alLookup_append_of_isSome _ _ _ hr, ih]
          simp [alLookup, hk]
        · have hr' : alLookup rest.reverse k = none := by
            cases hmm : alLookup rest.reverse k with
            | none => rfl
            | some v => rw [hmm] at hr; simp at hr
          rw [List.reverse_cons, alLookup_append_of_none _ _ _ hr']
          have : alLookup rest k = none := by
            have := ih.symm
            rw [hr'] at this
            cases hmm : alLookup rest k with
            | none => rfl
            | some v => rw [hmm] at this; simp at this
          simp [alLookup, hk, hr', this]

theorem mem_concatStrings (L : List String) (s : String) (c : Char)
    (h1 : s ∈ L) (h2 : c ∈ s.data) : c ∈ (concatStrings L).data := by
  induction L with
  | nil => cases h1
  | cons a rest ih =>
      rw [show concatStrings (a :: rest) = a ++ concatStrings rest from rfl, strData_append]
      cases h1 with
      | head => exact List.mem_append_left _ h2
      | tail _ h => exact List.mem_append_right _ (ih h)

theorem mem_joinComma (L : List String) (s : String) (c : Char)
    (h1 : s ∈ L) (h2 : c ∈ s.data) : c ∈ (joinComma L).data := by
  induction L with
  | nil => cases h1
  | cons a rest ih =>
      cases rest with
      | nil =>
          have hs : s = a := by
            cases h1 with
            | head => rfl
            | tail _ h => cases h
          subst hs
          exact h2
      | cons b bs =>
          rw [show joinComma (a :: b :: bs) = a ++ ", " ++ joinComma (b :: bs) from rfl,
              strData_append, strData_append]
          cases h1 with
          | head => exact List.mem_append_left _ (List.mem_append_left _ h2)
          | tail _ h => exact List.mem_append_right _ (ih h)

theorem escapeJsonChar_nonAscii (c : Char) (h : 128 ≤ c.toNat) :
    escapeJsonChar c = String.singleton c := by
  have h1 : ¬ c = '\\' := fun e => by subst e; exact absurd h (by decide)
  have h2 : ¬ c = '"' := fun e => by subst e; exact absurd h (by decide)
  have h3 : ¬ c = '\n' := fun e => by subst e; exact absurd h (by decide)
  have h4 : ¬ c = '\r' := fun e => by subst e; exact absurd h (by decide)
  have h5 : ¬ c = '\t' := fun e => by subst e; exact absurd h (by decide)
  have h6 : ¬ c.toNat = 8 := by omega
  have h7 : ¬ c.toNat = 12 := by omega
  have h8 : ¬ c.toNat < 32 := by omega
  simp only [escapeJsonChar, if_neg h1, if_neg h2, if_neg h3, if_neg h4, if_neg h5,
    if_neg h6, if_neg h7, if_neg h8]

theorem mem_escapeJsonString (s : String) (c : Char) (h1 : c ∈ s.data)
    (h2 : escapeJsonChar c = String.singleton c) : c ∈ (escapeJsonString s).data := by
  apply mem_concatStrings _ (escapeJsonChar c) c (List.mem_map_of_mem _ h1)
  rw [h2]
  exact List.mem_singleton_self c

theorem mem_serializeJString (s : String) (c : Char)
    (h : c ∈ (escapeJsonString s).data) : c ∈ (serializeJString s).data := by
  unfold serializeJString
  rw [strData_append, strData_append]
  exact List.mem_append_left _ (List.mem_append_right _ h)

theorem mem_jsonDumps (d : List (String × JVal)) (kv : String × JVal) (c : Char)
    (h1 : kv ∈ d) (h2 : c ∈ (jsonEntry kv).data) : c ∈ (jsonDumps d).data := by
  unfold jsonDumps
  rw [strData_append, strData_append]
  exact List.mem_append_left _
    (List.mem_append_right _ (mem_joinComma _ _ _ (List.mem_map_of_mem _ h1) h2))

theorem alLookup_alUpdate {α : Type} (l d : List (String × α)) (k : String) :
    alLookup (alUpdate d l) k =
      if alContainsKey l k then alLookupLast l k else alLookup d k := by
  induction l generalizing d with
  | nil => simp [alUpdate, alContainsKey, alLookup, alLookupLast]
  | cons kv rest ih =>
      have hstep : alUpdate d (kv :: rest) = alUpdate (alInsert d kv.1 kv.2) rest := rfl
      rw [hstep, ih]
      by_cases hc : alContainsKey rest k
      · have hrev : (alLookup rest.reverse k).isSome := by
          rw [alLookup_reverse_isSome]; exact hc
        have hck : alContainsKey (kv :: rest) k := by
          simp only [alContainsKey, alLookup] at hc ⊢
          by_cases hk : kv.1 = k
          · simp [hk]
          · simpa [hk] using hc
        rw [if_pos hc, if_pos hck]
        unfold alLookupLast
        rw [List.reverse_cons, alLookup_append_of_isSome _ _ _ hrev]
      · have hrev : alLookup rest.reverse k = none := by
          have h1 : (alLookup rest.reverse k).isSome = false := by
            rw [alLookup_reverse_isSome]
            simpa [alContainsKey] using hc
          cases hmm : alLookup rest.reverse k with
          | none => rfl
          | some v => rw [hmm] at h1; simp at h1
        rw [if_neg hc]
        by_cases hk : kv.1 = k
        · have hck : alContainsKey (kv :: rest) k := by
            simp [alContainsKey, alLookup, hk]
          rw [if_pos hck, hk, alLookup_alInsert_self d k kv.2]
          unfold alLookupLast
          rw [List.reverse_cons, alLookup_append_of_none _ _ _ hrev]
          simp [alLookup, hk]
        · have hck : ¬ alContainsKey (kv :: rest) k := by
            simp only [alContainsKey, alLookup, if_neg hk] at hc ⊢
            exact hc
          rw [if_neg hck, alLookup_alInsert_ne d kv.1 k kv.2 (fun e => hk e.symm)]

theorem configureLogger_propagate (lg : Logger) (lf : Option String) (fm : String)
    (mb bc : Nat) : (configureLogger lg lf fm mb bc).1.propagate = false := by
  unfold configureLogger
  cases hf : effectiveLogFile lf <;> simp [hf]

theorem configureLogger_handlers_ne_nil (lg : Logger) (lf : Option String) (fm : String)
    (mb bc : Nat) : (configureLogger lg lf fm mb bc).1.handlers ≠ [] := by
  unfold configureLogger
  cases hf : effectiveLogFile lf <;> simp [hf]

theorem configureLogger_console_mem (lg : Logger) (lf : Option String) (fm : String)
    (mb bc : Nat) :
    Handler.console (chooseFormatter fm) ∈ (configureLogger lg lf fm mb bc).1.handlers := by
  unfold configureLogger
  cases hf : effectiveLogFile lf <;> simp [hf]

theorem get_logger_eq_found_handlers (st : RegState) (name : Option String)
    (ll : PyLevel) (lf : Option String) (fm : String) (mb bc : Nat) (lg : Logger)
    (a : Handler) (rest : List Handler)
    (hfound : alLookup st (keyOf name) = some lg) (hh : lg.handlers = a :: rest) :
    get_logger st name ll lf fm mb bc = .ok (lg, st, []) := by
  simp only [get_logger, hfound, Option.getD_some, hh]

theorem get_logger_eq_config_none (st : RegState) (name : Option String)
    (ll : PyLevel) (lf : Option String) (fm : String) (mb bc : Nat) (v : Int)
    (hfound : alLookup st (keyOf name) = none) (hl : checkLevel ll = .ok v) :
    get_logger st name ll lf fm mb bc =
      .ok ((configureLogger { freshLogger (keyOf name) with level := v } lf fm mb bc).1,
           alInsert (alInsert st (keyOf name) (freshLogger (keyOf name))) (keyOf name)
             (configureLogger { freshLogger (keyOf name) with level := v } lf fm mb bc).1,
           (configureLogger { freshLogger (keyOf name) with level := v } lf fm mb bc).2) := by
  simp only [get_logger, hfound, Option.getD_none, hl, freshLogger]

theorem get_logger_eq_config_some (st : RegState) (name : Option String)
    (ll : PyLevel) (lf : Option String) (fm : String) (mb bc : Nat) (lg : Logger) (v : Int)
    (hfound : alLookup st (keyOf name) = some lg) (hh : lg.handlers = [])
    (hl : checkLevel ll = .ok v) :
    get_logger st name ll lf fm mb bc =
      .ok ((configureLogger { lg with level := v } lf fm mb bc).1,
           alInsert st (keyOf name) (configureLogger { lg with level := v } lf fm mb bc).1,
           (configureLogger { lg with level := v } lf fm mb bc).2) := by
  simp only [get_logger, hfound, Option.getD_some, hh, hl]

theorem get_logger_eq_error_none (st : RegState) (name : Option String)
    (ll : PyLevel) (lf : Option String) (fm : String) (mb bc : Nat) (e : String)
    (hfound : alLookup st (keyOf name) = none) (hl : checkLevel ll = .error e) :
    get_logger st name ll lf fm mb bc = .error e := by
  simp only [get_logger, hfound, Option.getD_none, hl, freshLogger]

theorem get_logger_eq_error_some (st : RegState) (name : Option String)
    (ll : PyLevel) (lf : Option String) (fm : String) (mb bc : Nat) (lg : Logger) (e : String)
    (hfound : alLookup st (keyOf name) = some lg) (hh : lg.handlers = [])
    (hl : checkLevel ll = .error e) :
    get_logger st name ll lf fm mb bc = .error e := by
  simp only [get_logger, hfound, Option.getD_some, hh, hl]

theorem handlers_of_unconfigured (st : RegState) (name : Option String) (lg : Logger)
    (hu : unconfiguredB st name = true) (hfound : alLookup st (keyOf name) = some lg) :
    lg.handlers = [] := by
  unfold unconfiguredB at hu
  rw [hfound] at hu
  exact List.isEmpty_iff.mp hu

theorem get_logger_config (st : RegState) (name : Option String) (ll : PyLevel)
    (lf : Option String) (fm : String) (mb bc : Nat) (v : Int)
    (hu : unconfiguredB st name = true) (hl : checkLevel ll = .ok v) :
    ∃ (lg : Logger) (st0 : RegState), lg.handlers = [] ∧
      get_logger st name ll lf fm mb bc =
        .ok ((configureLogger { lg with level := v } lf fm mb bc).1,
             alInsert st0 (keyOf name) (configureLogger { lg with level := v } lf fm mb bc).1,
             (configureLogger { lg with level := v } lf fm mb bc).2) := by
  cases hfound : alLookup st (keyOf name) with
  | none =>
      exact ⟨freshLogger (keyOf name), alInsert st (keyOf name) (freshLogger (keyOf name)),
        rfl, get_logger_eq_config_none st name ll lf fm mb bc v hfound hl⟩
  | some lg =>
      exact ⟨lg, st, handlers_of_unconfigured st name lg hu hfound,
        get_logger_eq_config_some st name ll lf fm mb bc lg v hfound
          (handlers_of_unconfigured st name lg hu hfound) hl⟩

theorem get_logger_ok_lookup (st : RegState) (name : Option String) (ll : PyLevel)
    (lf : Option String) (fm : String) (mb bc : Nat) (l : Logger) (st' : RegState)
    (eff : List FsEffect)
    (h : get_logger st name ll lf fm mb bc = .ok (l, st', eff)) :
    alLookup st' (keyOf name) = some l ∧ l.handlers ≠ [] := by
  cases hfound : alLookup st (keyOf name) with
  | some lg =>
      cases hh : lg.handlers with
      | cons a rest =>
          rw [get_logger_eq_found_handlers st name ll lf fm mb bc lg a rest hfound hh] at h
          have h' := Except.ok.inj h
          obtain ⟨rfl, rfl, rfl⟩ : lg = l ∧ st = st' ∧ ([] : List FsEffect) = eff := by
            refine ⟨congrArg Prod.fst h', ?_, ?_⟩
            · exact congrArg Prod.fst (congrArg Prod.snd h')
            · exact congrArg Prod.snd (congrArg Prod.snd h')
          exact ⟨hfound, by rw [hh]; simp⟩
      | nil =>
          cases hl : checkLevel ll with
          | error e =>
              rw [get_logger_eq_error_some st name ll lf fm mb bc lg e hfound hh hl] at h
              exact Except.noConfusion h
          | ok v =>
              rw [get_logger_eq_config_some st name ll lf fm mb bc lg v hfound hh hl] at h
              have h' := Except.ok.inj h
              obtain ⟨h1, h2, h3⟩ :
                  (configureLogger { lg with level := v } lf fm mb bc).1 = l ∧
                  alInsert st (keyOf name)
                    (configureLogger { lg with level := v } lf fm mb bc).1 = st' ∧
                  (configureLogger { lg with level := v } lf fm mb bc).2 = eff := by
                refine ⟨congrArg Prod.fst h', ?_, ?_⟩
                · exact congrArg Prod.fst (congrArg Prod.snd h')
                · exact congrArg Prod.snd (congrArg Prod.snd h')
              subst h1
              subst h2
              exact ⟨alLookup_alInsert_self _ _ _,
                configureLogger_handlers_ne_nil _ _ _ _ _⟩
  | none =>
      cases hl : checkLevel ll with
      | error e =>
          rw [get_logger_eq_error_none st name ll lf fm mb bc e hfound hl] at h
          exact Except.noConfusion h
      | ok v =>
          rw [get_logger_eq_config_none st name ll lf fm mb bc v hfound hl] at h
          have h' := Except.ok.inj h
          obtain ⟨h1, h2, h3⟩ :
              (configureLogger { freshLogger (keyOf name) with level := v } lf fm mb bc).1 = l ∧
              alInsert (alInsert st (keyOf name) (freshLogger (keyOf name))) (keyOf name)
                (configureLogger { freshLogger (keyOf name) with level := v } lf fm mb bc).1 = st' ∧
              (configureLogger { freshLogger (keyOf name) with level := v } lf fm mb bc).2 = eff := by
            refine ⟨congrArg Prod.fst h', ?_, ?_⟩
            · exact congrArg Prod.fst (congrArg Prod.snd h')
            · exact congrArg Prod.snd (congrArg Prod.snd h')
          subst h1
          subst h2
          exact ⟨alLookup_alInsert_self _ _ _,
            configureLogger_handlers_ne_nil _ _ _ _ _⟩

theorem message_entry_mem_formatDict (r : LogRecord) (h : r.extra = none) :
    ("message", JVal.s (getMessage r)) ∈ JSONFormatter.formatDict r := by
  cases hexc : r.exc_info with
  | none => simp [JSONFormatter.formatDict, h, hexc]
  | some e =>
      have hbase : alLookup
          [("timestamp", JVal.s (formatTime none r)), ("level", JVal.s r.levelname),
           ("message", JVal.s (getMessage r)), ("module", JVal.s r.module),
           ("function", JVal.s r.funcName), ("line", JVal.i (r.lineno : Int))]
          "exception" = none := rfl
      simp only [JSONFormatter.formatDict, h, hexc]
      rw [alInsert_of_lookup_none _ _ _ hbase]
      exact List.mem_append_left _ (by simp)

theorem addExcText_none (s : String) (r : LogRecord) (h : r.exc_info = none) :
    addExcText s r = s := by
  simp only [addExcText, h]

/-! ## Claims -/

/-- Claim C1: a second `get_logger` call with the name of an
already-configured logger returns the identical logger with its
configuration (level, formatter, sinks, propagation flag) unchanged,
leaves the registry unchanged, performs no filesystem effects, and
ignores the second call's level, file, format, `max_bytes` and
`backup_count` arguments. -/
theorem c1_second_call_returns_same_logger (st : RegState) (name : Option String)
    (ll : PyLevel) (lf : Option String) (fm : String) (mb bc : Nat)
    (l1 : Logger) (st1 : RegState) (eff1 : List FsEffect)
    (h : get_logger st name ll lf fm mb bc = .ok (l1, st1, eff1))
    (ll2 : PyLevel) (lf2 : Option String) (fm2 : String) (mb2 bc2 : Nat) :
    get_logger st1 name ll2 lf2 fm2 mb2 bc2 = .ok (l1, st1, []) := by
  obtain ⟨hl, hh⟩ := get_logger_ok_lookup st name ll lf fm mb bc l1 st1 eff1 h
  obtain ⟨a, rest, hcons⟩ := List.exists_cons_of_ne_nil hh
  exact get_logger_eq_found_handlers st1 name ll2 lf2 fm2 mb2 bc2 l1 a rest hl hcons

/-- Witness for C1: a logger first configured with defaults is returned
unchanged by a second call that requests a different level, a log file
and JSON format. -/
theorem c1_witness :
    get_logger
      [("app", { name := "app", level := 20,
                 handlers := [Handler.console textFormatter], propagate := false })]
      (some "app") (.str "DEBUG") (some "other.log") "json" 5 2 =
      .ok ({ name := "app", level := 20,
             handlers := [Handler.console textFormatter], propagate := false },
           [("app", { name := "app", level := 20,
                      handlers := [Handler.console textFormatter], propagate := false })],
           []) :=
  c1_second_call_returns_same_logger [] (some "app") (.int 20) none "text" 100 1
    { name := "app", level := 20, handlers := [Handler.console textFormatter],
      propagate := false }
    [("app", { name := "app", level := 20, handlers := [Handler.console textFormatter],
               propagate := false })]
    [] rfl (.str "DEBUG") (some "other.log") "json" 5 2

/-- Claim C8: every logger returned by a configuring `get_logger` call
has its propagation flag cleared. -/
theorem c8_propagate_false (st : RegState) (name : Option String) (ll : PyLevel)
    (lf : Option String) (fm : String) (mb bc : Nat) (l : Logger) (st' : RegState)
    (eff : List FsEffect)
    (hu : unconfiguredB st name = true)
    (h : get_logger st name ll lf fm mb bc = .ok (l, st', eff)) :
    l.propagate = false := by
  cases hl : checkLevel ll with
  | error e =>
      exfalso
      cases hfound : alLookup st (keyOf name) with
      | none =>
          rw [get_logger_eq_error_none st name ll lf fm mb bc e hfound hl] at h
          exact Except.noConfusion h
      | some lg =>
          rw [get_logger_eq_error_some st name ll lf fm mb bc lg e hfound
            (handlers_of_unconfigured st name lg hu hfound) hl] at h
          exact Except.noConfusion h
  | ok v =>
      obtain ⟨lg, st0, hlg, heq⟩ := get_logger_config st name ll lf fm mb bc v hu hl
      rw [heq] at h
      have h1 : (configureLogger { lg with level := v } lf fm mb bc).1 = l :=
        congrArg Prod.fst (Except.ok.inj h)
      rw [← h1]
      exact configureLogger_propagate _ _ _ _ _

/-- Witness for C8: the logger configured by a first call on a fresh
name has propagation off. -/
theorem c8_witness :
    ({ name := "w8", level := 20, handlers := [Handler.console textFormatter],
       propagate := false } : Logger).propagate = false :=
  c8_propagate_false [] (some "w8") (.int 20) none "text" 100 1
    { name := "w8", level := 20, handlers := [Handler.console textFormatter],
      propagate := false }
    [("w8", { name := "w8", level := 20, handlers := [Handler.console textFormatter],
              propagate := false })]
    [] rfl rfl

/-- Claim C9: any `log_format` whose lowercasing is not `"json"` -
including values outside the documented set - raises no error and gets
the human-readable text formatter attached to the console sink. -/
theorem c9_unknown_format_falls_back_to_text (st : RegState) (name : Option String)
    (ll : PyLevel) (lf : Option String) (mb bc : Nat) (fm : String) (v : Int)
    (hu : unconfiguredB st name = true) (hl : checkLevel ll = .ok v)
    (hfm : asciiLower fm ≠ "json") :
    chooseFormatter fm = textFormatter
    ∧ ∃ (l : Logger) (st' : RegState) (eff : List FsEffect),
        get_logger st name ll lf fm mb bc = .ok (l, st', eff)
        ∧ Handler.console textFormatter ∈ l.handlers := by
  have hcf : chooseFormatter fm = textFormatter := by
    simp [chooseFormatter, beq_eq_false_iff_ne.mpr hfm]
  refine ⟨hcf, ?_⟩
  obtain ⟨lg, st0, hlg, heq⟩ := get_logger_config st name ll lf fm mb bc v hu hl
  exact ⟨_, _, _, heq, hcf ▸ configureLogger_console_mem _ lf fm mb bc⟩

/-- Witness for C9: `log_format = "yaml"` configures without error and
attaches the text formatter. -/
theorem c9_witness :
    chooseFormatter "yaml" = textFormatter
    ∧ ∃ (l : Logger) (st' : RegState) (eff : List FsEffect),
        get_logger [] (some "w9") (.int 20) none "yaml" 100 1 = .ok (l, st', eff)
        ∧ Handler.console textFormatter ∈ l.handlers :=
  c9_unknown_format_falls_back_to_text [] (some "w9") (.int 20) none 100 1 "yaml" 20
    rfl rfl (by decide)

/-- Claim C10: every logger a successful `get_logger` call returns has
at least one handler attached (the early-return path requires an
existing handler, the configuration path always attaches the console
sink), and in particular the module-import call that builds
`root_logger` succeeds and yields a logger with a handler. -/
theorem c10_returned_logger_has_sink :
    (∀ (st : RegState) (name : Option String) (ll : PyLevel) (lf : Option String)
       (fm : String) (mb bc : Nat) (l : Logger) (st' : RegState) (eff : List FsEffect),
        get_logger st name ll lf fm mb bc = .ok (l, st', eff) → l.handlers ≠ [])
    ∧ ∃ (l : Logger) (st' : RegState) (eff : List FsEffect),
        moduleInit = .ok (l, st', eff) ∧ l.handlers ≠ [] := by
  constructor
  · intro st name ll lf fm mb bc l st' eff h
    exact (get_logger_ok_lookup st name ll lf fm mb bc l st' eff h).2
  · exact ⟨{ name := "", level := 20, handlers := [Handler.console textFormatter],
             propagate := false },
           [("", { name := "", level := 20, handlers := [Handler.console textFormatter],
                   propagate := false })],
           [], rfl, by simp⟩

/-- Witness for C10: the universal part applied to a concrete first
call. -/
theorem c10_witness :
    ({ name := "w10", level := 20, handlers := [Handler.console textFormatter],
       propagate := false } : Logger).handlers ≠ [] :=
  c10_returned_logger_has_sink.1 [] (some "w10") (.int 20) none "text" 100 1
    { name := "w10", level := 20, handlers := [Handler.console textFormatter],
      propagate := false }
    [("w10", { name := "w10", level := 20, handlers := [Handler.console textFormatter],
               propagate := false })]
    [] rfl

/-- Claim C5: a relative `log_file` path given to a first configuration
is resolved against the project root (one directory above the module's
own directory, absolute paths being used as-is), the missing parent
directories of the resolved path are created before the rotating file
sink - carrying that resolved path - is attached. -/
theorem c5_relative_path_resolution (st : RegState) (name : Option String)
    (ll : PyLevel) (fm : String) (mb bc : Nat) (p : String) (v : Int)
    (hu : unconfiguredB st name = true) (hl : checkLevel ll = .ok v)
    (habs : pyPathIsAbs p = false) (hne : p ≠ "") :
    resolveLogFile p = projectRoot ++ "/" ++ p
    ∧ projectRoot = pyPathParent (pyPathParent moduleFile)
    ∧ (∀ q, pyPathIsAbs q = true → resolveLogFile q = q)
    ∧ ∃ (l : Logger) (st' : RegState),
        get_logger st name ll (some p) fm mb bc =
          .ok (l, st',
            [FsEffect.mkdirParents (pyPathParent (resolveLogFile p)),
             FsEffect.openFile (resolveLogFile p)])
        ∧ Handler.rotatingFile (resolveLogFile p) mb bc "utf-8" (chooseFormatter fm)
            ∈ l.handlers := by
  have heff : effectiveLogFile (some p) = some (resolveLogFile p) := by
    simp [effectiveLogFile, hne]
  refine ⟨by simp [resolveLogFile, pyPathJoin, habs], rfl, fun q hq => by simp [resolveLogFile, hq], ?_⟩
  obtain ⟨lg, st0, hlg, heq⟩ := get_logger_config st name ll (some p) fm mb bc v hu hl
  have hcfg2 : (configureLogger { lg with level := v } (some p) fm mb bc).2 =
      [FsEffect.mkdirParents (pyPathParent (resolveLogFile p)),
       FsEffect.openFile (resolveLogFile p)] := by
    simp only [configureLogger, heff]
  have hmem : Handler.rotatingFile (resolveLogFile p) mb bc "utf-8" (chooseFormatter fm)
      ∈ (configureLogger { lg with level := v } (some p) fm mb bc).1.handlers := by
    simp only [configureLogger, heff]
    simp
  rw [hcfg2] at heq
  exact ⟨_, _, heq, hmem⟩

/-- Witness for C5: `"logs/app.log"` resolves to
`<project_root>/logs/app.log`, whose directory is created before the
rotating sink opens the file. -/
theorem c5_witness :
    resolveLogFile "logs/app.log" = projectRoot ++ "/" ++ "logs/app.log"
    ∧ projectRoot = pyPathParent (pyPathParent moduleFile)
    ∧ (∀ q, pyPathIsAbs q = true → resolveLogFile q = q)
    ∧ ∃ (l : Logger) (st' : RegState),
        get_logger [] (some "w5") (.int 20) (some "logs/app.log") "text" 100 1 =
          .ok (l, st',
            [FsEffect.mkdirParents "/project_root/logs",
             FsEffect.openFile "/project_root/logs/app.log"])
        ∧ Handler.rotatingFile "/project_root/logs/app.log" 100 1 "utf-8"
            (chooseFormatter "text") ∈ l.handlers :=
  c5_relative_path_resolution [] (some "w5") (.int 20) "text" 100 1 "logs/app.log" 20
    rfl rfl rfl (by decide)

/-- Claim C6: on an unconfigured name the severity level is accepted as
any integer code, or as a recognized (exact) level name; an
unrecognized name makes `get_logger` fail with the setup-time
configuration error rather than fall back to a default. -/
theorem c6_level_validation (st : RegState) (name : Option String) (lf : Option String)
    (fm : String) (mb bc : Nat)
    (hu : unconfiguredB st name = true) :
    (∀ n : Int, ∃ (l : Logger) (st' : RegState) (eff : List FsEffect),
        get_logger st name (.int n) lf fm mb bc = .ok (l, st', eff))
    ∧ (∀ (s : String) (v : Int), alLookup nameToLevel s = some v →
        ∃ (l : Logger) (st' : RegState) (eff : List FsEffect),
          get_logger st name (.str s) lf fm mb bc = .ok (l, st', eff))
    ∧ (∀ s : String, alLookup nameToLevel s = none →
        get_logger st name (.str s) lf fm mb bc = .error ("Unknown level: " ++ s)) := by
  refine ⟨?_, ?_, ?_⟩
  · intro n
    obtain ⟨lg, st0, hlg, heq⟩ := get_logger_config st name (.int n) lf fm mb bc n hu rfl
    exact ⟨_, _, _, heq⟩
  · intro s v hs
    have hl : checkLevel (.str s) = .ok v := by simp [checkLevel, hs]
    obtain ⟨lg, st0, hlg, heq⟩ := get_logger_config st name (.str s) lf fm mb bc v hu hl
    exact ⟨_, _, _, heq⟩
  · intro s hs
    have hl : checkLevel (.str s) = .error ("Unknown level: " ++ s) := by
      simp [checkLevel, hs]
    cases hfound : alLookup st (keyOf name) with
    | none => exact get_logger_eq_error_none st name (.str s) lf fm mb bc _ hfound hl
    | some lg =>
        exact get_logger_eq_error_some st name (.str s) lf fm mb bc lg _ hfound
          (handlers_of_unconfigured st name lg hu hfound) hl

/-- Witness for C6: an integer level is accepted, a recognized name is
accepted, and the unrecognized name `"verbose"` fails with the
configuration error. -/
theorem c6_witness :
    (∃ (l : Logger) (st' : RegState) (eff : List FsEffect),
        get_logger [] (some "w6") (.int 20) none "text" 100 1 = .ok (l, st', eff))
    ∧ (∃ (l : Logger) (st' : RegState) (eff : List FsEffect),
        get_logger [] (some "w6") (.str "DEBUG") none "text" 100 1 = .ok (l, st', eff))
    ∧ get_logger [] (some "w6") (.str "verbose") none "text" 100 1 =
        .error ("Unknown level: " ++ "verbose") :=
  ⟨(c6_level_validation [] (some "w6") none "text" 100 1 rfl).1 20,
   (c6_level_validation [] (some "w6") none "text" 100 1 rfl).2.1 "DEBUG" 10 rfl,
   (c6_level_validation [] (some "w6") none "text" 100 1 rfl).2.2 "verbose" rfl⟩

/-- Claim C2: every entry of a non-empty extra-fields mapping is merged
into the top level of the JSON object, the merged value overriding any
standard key it collides with (last-write-wins). -/
theorem c2_extra_fields_merged (r : LogRecord) (l : List (String × JVal))
    (h : r.extra = some l) (hne : l ≠ []) (k : String)
    (hk : alContainsKey l k = true) :
    alLookup (JSONFormatter.formatDict r) k = alLookupLast l k := by
  obtain ⟨x, xs, rfl⟩ := List.exists_cons_of_ne_nil hne
  have hd : JSONFormatter.formatDict r =
      alUpdate (match r.exc_info with
        | some e =>
            alInsert
              [("timestamp", .s (formatTime none r)), ("level", .s r.levelname),
               ("message", .s (getMessage r)), ("module", .s r.module),
               ("function", .s r.funcName), ("line", .i (r.lineno : Int))]
              "exception" (.s e)
        | none =>
            [("timestamp", .s (formatTime none r)), ("level", .s r.levelname),
             ("message", .s (getMessage r)), ("module", .s r.module),
             ("function", .s r.funcName), ("line", .i (r.lineno : Int))])
        (x :: xs) := by
    cases hexc : r.exc_info <;> simp [JSONFormatter.formatDict, h, hexc]
  rw [hd, alLookup_alUpdate, if_pos hk]

/-- Witness for C2: an event with extra field `request_id = "abc"` has
`request_id` bound to `"abc"` at the top level of the formatted
object. -/
theorem c2_witness :
    alLookup
      (JSONFormatter.formatDict
        { name := "svc", levelname := "INFO", msg := "started", module := "app",
          funcName := "main", lineno := 42, created := ⟨2026, 10, 12, 9, 5, 3⟩,
          msecs := 7, exc_info := none,
          extra := some [("request_id", JVal.s "abc")] })
      "request_id" = some (JVal.s "abc") :=
  (c2_extra_fields_merged
    { name := "svc", levelname := "INFO", msg := "started", module := "app",
      funcName := "main", lineno := 42, created := ⟨2026, 10, 12, 9, 5, 3⟩,
      msecs := 7, exc_info := none, extra := some [("request_id", JVal.s "abc")] }
    [("request_id", JVal.s "abc")] rfl (by decide) "request_id" (by decide)).trans
    (by decide)

/-- Claim C3: an event with no exception and no extra fields is
formatted as an object with exactly the six standard keys `timestamp`,
`level`, `message`, `module`, `function`, `line`; the `exception` key
is absent entirely. -/
theorem c3_six_standard_keys (r : LogRecord) (h1 : r.exc_info = none)
    (h2 : r.extra = none ∨ r.extra = some []) :
    JSONFormatter.formatDict r =
      [("timestamp", .s (formatTime none r)), ("level", .s r.levelname),
       ("message", .s (getMessage r)), ("module", .s r.module),
       ("function", .s r.funcName), ("line", .i (r.lineno : Int))]
    ∧ (JSONFormatter.formatDict r).map Prod.fst =
        ["timestamp", "level", "message", "module", "function", "line"]
    ∧ JSONFormatter.format r = jsonDumps
        [("timestamp", .s (formatTime none r)), ("level", .s r.levelname),
         ("message", .s (getMessage r)), ("module", .s r.module),
         ("function", .s r.funcName), ("line", .i (r.lineno : Int))] := by
  have hd : JSONFormatter.formatDict r =
      [("timestamp", .s (formatTime none r)), ("level", .s r.levelname),
       ("message", .s (getMessage r)), ("module", .s r.module),
       ("function", .s r.funcName), ("line", .i (r.lineno : Int))] := by
    rcases h2 with h2 | h2 <;> simp [JSONFormatter.formatDict, h1, h2]
  exact ⟨hd, by rw [hd]; rfl, by unfold JSONFormatter.format; rw [hd]⟩

/-- Witness for C3: a plain INFO event carries exactly the six
standard keys. -/
theorem c3_witness :
    (JSONFormatter.formatDict
      { name := "svc", levelname := "INFO", msg := "started", module := "app",
        funcName := "main", lineno := 42, created := ⟨2026, 10, 12, 9, 5, 3⟩,
        msecs := 7, exc_info := none, extra := none }).map Prod.fst =
      ["timestamp", "level", "message", "module", "function", "line"] :=
  (c3_six_standard_keys
    { name := "svc", levelname := "INFO", msg := "started", module := "app",
      funcName := "main", lineno := 42, created := ⟨2026, 10, 12, 9, 5, 3⟩,
      msecs := 7, exc_info := none, extra := none }
    rfl (Or.inl rfl)).2.1

/-- Claim C4: a text-mode event renders as
`<timestamp> - <name> - <LEVEL> - <message>`, with the timestamp in
`YYYY-MM-DD HH:MM:SS` form, and the `svc`/INFO/`started` line ends in
`svc - INFO - started` (events carrying exception info additionally get
the rendered trace appended after this line, hence the
exception-free hypothesis). -/
theorem c4_text_line_format (r : LogRecord) (h : r.exc_info = none) :
    Formatter.formatRecord textFormatter r =
      pyStrftime "%Y-%m-%d %H:%M:%S" r.created ++ " - " ++ r.name ++ " - " ++
        r.levelname ++ " - " ++ r.msg
    ∧ pyStrftime "%Y-%m-%d %H:%M:%S" r.created =
        toString r.created.year ++ "-" ++ pad2 r.created.month ++ "-" ++
          pad2 r.created.day ++ " " ++ pad2 r.created.hour ++ ":" ++
          pad2 r.created.minute ++ ":" ++ pad2 r.created.second
    ∧ (r.name = "svc" → r.levelname = "INFO" → r.msg = "started" →
        strEndsWith (Formatter.formatRecord textFormatter r) "svc - INFO - started") := by
  have hmain : Formatter.formatRecord textFormatter r =
      pyStrftime "%Y-%m-%d %H:%M:%S" r.created ++ " - " ++ r.name ++ " - " ++
        r.levelname ++ " - " ++ r.msg := by
    have hrw : Formatter.formatRecord textFormatter r
        = addExcText (pyPercentFormat
            (recordFieldMap r (formatTime (some dateFmtString) r)) logFmtString) r := rfl
    rw [hrw, addExcText_none _ _ h]
    simp only [String.append_assoc]
    rfl
  have hts : pyStrftime "%Y-%m-%d %H:%M:%S" r.created =
      toString r.created.year ++ "-" ++ pad2 r.created.month ++ "-" ++
        pad2 r.created.day ++ " " ++ pad2 r.created.hour ++ ":" ++
        pad2 r.created.minute ++ ":" ++ pad2 r.created.second := by
    simp only [String.append_assoc]
    rfl
  refine ⟨hmain, hts, fun hn hl hm => ?_⟩
  unfold strEndsWith
  rw [hmain, hn, hl, hm]
  simp only [String.append_assoc]
  rw [strData_append]
  exact List.IsSuffix.trans ⟨" - ".data, by decide⟩ (List.suffix_append _ _)

/-- Witness for C4: a concrete `svc`/INFO/`started` event renders to
the expected literal line and ends in `svc - INFO - started`. -/
theorem c4_witness :
    Formatter.formatRecord textFormatter
        { name := "svc", levelname := "INFO", msg := "started", module := "app",
          funcName := "main", lineno := 42, created := ⟨2026, 10, 12, 9, 5, 3⟩,
          msecs := 7, exc_info := none, extra := none } =
      pyStrftime "%Y-%m-%d %H:%M:%S" (⟨2026, 10, 12, 9, 5, 3⟩ : PyTime) ++ " - " ++
        "svc" ++ " - " ++ "INFO" ++ " - " ++ "started"
    ∧ strEndsWith
        (Formatter.formatRecord textFormatter
          { name := "svc", levelname := "INFO", msg := "started", module := "app",
            funcName := "main", lineno := 42, created := ⟨2026, 10, 12, 9, 5, 3⟩,
            msecs := 7, exc_info := none, extra := none })
        "svc - INFO - started" :=
  ⟨(c4_text_line_format
      { name := "svc", levelname := "INFO", msg := "started", module := "app",
        funcName := "main", lineno := 42, created := ⟨2026, 10, 12, 9, 5, 3⟩,
        msecs := 7, exc_info := none, extra := none } rfl).1,
   (c4_text_line_format
      { name := "svc", levelname := "INFO", msg := "started", module := "app",
        funcName := "main", lineno := 42, created := ⟨2026, 10, 12, 9, 5, 3⟩,
        msecs := 7, exc_info := none, extra := none } rfl).2.2 rfl rfl rfl⟩

/-- Claim C7: the JSON serialization leaves every non-ASCII character
unescaped: such a character is mapped to itself by the escape function
(so it is never turned into a `\uXXXX` sequence), it survives string
serialization literally, and it appears literally in the formatted
output of a record whose message contains it. -/
theorem c7_non_ascii_unescaped :
    (∀ c : Char, 128 ≤ c.toNat → escapeJsonChar c = String.singleton c)
    ∧ (∀ (s : String) (c : Char), c ∈ s.data → 128 ≤ c.toNat →
        c ∈ (serializeJString s).data)
    ∧ (∀ (r : LogRecord) (c : Char), c ∈ r.msg.data → 128 ≤ c.toNat →
        r.extra = none → c ∈ (JSONFormatter.format r).data) := by
  refine ⟨escapeJsonChar_nonAscii, ?_, ?_⟩
  · intro s c h1 h2
    exact mem_serializeJString s c (mem_escapeJsonString s c h1 (escapeJsonChar_nonAscii c h2))
  · intro r c h1 h2 hex
    apply mem_jsonDumps _ _ _ (message_entry_mem_formatDict r hex)
    unfold jsonEntry
    rw [strData_append]
    exact List.mem_append_right _
      (mem_serializeJString _ c (mem_escapeJsonString _ c h1 (escapeJsonChar_nonAscii c h2)))

/-- Witness for C7: the non-ASCII character of `"café"` is not escaped
and appears literally in the JSON output of an event with that
message. -/
theorem c7_witness :
    escapeJsonChar 'é' = String.singleton 'é'
    ∧ 'é' ∈ (JSONFormatter.format
        { name := "svc", levelname := "INFO", msg := "café", module := "app",
          funcName := "main", lineno := 42, created := ⟨2026, 10, 12, 9, 5, 3⟩,
          msecs := 7, exc_info := none, extra := none }).data :=
  ⟨c7_non_ascii_unescaped.1 'é' (by decide),
   c7_non_ascii_unescaped.2.2
     { name := "svc", levelname := "INFO", msg := "café", module := "app",
       funcName := "main", lineno := 42, created := ⟨2026, 10, 12, 9, 5, 3⟩,
       msecs := 7, exc_info := none, extra := none }
     'é' (by decide) (by decide) rfl⟩

end PyLogging
